import Mathlib

/-!
Verification of the malaria-analysis backend (src/backend/app.py) against its
specification.  The Python functions are shallowly embedded as pure Lean
functions; Python floats are modelled by exact rationals, and each call to the
random module is modelled by an explicit draw parameter whose range matches the
documented contract of the corresponding random primitive.
-/

namespace Malaria

/-- The four parasite species the classifier stub can emit
(`random.choice(["P. falciparum", "P. vivax", "P. ovale", "P. malariae"])`). -/
inductive Species where
  | falciparum
  | vivax
  | ovale
  | malariae
deriving DecidableEq

/-- The JSON string stored in the `parasite_type` field for each species. -/
def Species.name : Species → String
  | .falciparum => "P. falciparum"
  | .vivax => "P. vivax"
  | .ovale => "P. ovale"
  | .malariae => "P. malariae"

/-- One per-image result dict produced by `analyze_image_for_malaria`:
keys `parasite_detected`, `parasite_type` (a species name or `None`) and
`confidence`.  Every species name is a non-empty string, so Python truthiness
of the `parasite_type` value coincides with `Option.isSome` here. -/
structure DetectionResult where
  parasite_detected : Bool
  parasite_type : Option Species
  confidence : ℚ
deriving DecidableEq

/-- The differently-shaped result dicts of `analyze_malaria_pdf`: the
Inconclusive dict has only `diagnosis` and `error` keys; the Positive and
Negative dicts carry counts and a confidence. -/
inductive Diagnosis where
  | inconclusive (error : String)
  | positive (parasites_detected : List String) (confidence : ℚ)
      (parasite_count : Nat) (images_analyzed : Nat)
  | negative (confidence : ℚ) (parasite_count : Nat) (images_analyzed : Nat)
deriving DecidableEq

/-- The `images_analyzed` key of a result dict, when present. -/
def imagesAnalyzedOf : Diagnosis → Option Nat
  | .inconclusive _ => none
  | .positive _ _ _ n => some n
  | .negative _ _ n => some n

/-- `positive_count = sum(1 for r in image_results if r["parasite_detected"])`. -/
def positive_count (image_results : List DetectionResult) : Nat :=
  image_results.countP (fun r => r.parasite_detected)

/-- `parasites = [r["parasite_type"] for r in image_results
                  if r["parasite_detected"] and r["parasite_type"]]`.
The truthiness test on `parasite_type` is `Option.isSome` (all species names
are non-empty strings). -/
def parasitesOf (image_results : List DetectionResult) : List String :=
  (image_results.filter
      (fun r => r.parasite_detected && r.parasite_type.isSome)).filterMap
    (fun r => r.parasite_type.map Species.name)

/-- `confidences = [r["confidence"] for r in image_results if r["parasite_detected"]]`. -/
def confidencesOf (image_results : List DetectionResult) : List ℚ :=
  (image_results.filter (fun r => r.parasite_detected)).map
    (fun r => r.confidence)

/-- The aggregation part of `analyze_malaria_pdf`, as a pure function of the
per-image results.  The source checks `if not images` on the image list before
classification; since exactly one result is produced per image, the emptiness
test is equivalently taken on the result list here.  `list(set(parasites))`
(arbitrary order) is modelled by `List.dedup`; the claims about the species set
are read up to set equality. -/
def aggregate (image_results : List DetectionResult) : Diagnosis :=
  if image_results.isEmpty then
    Diagnosis.inconclusive "No images found in PDF"
  else if 0 < positive_count image_results then
    Diagnosis.positive (parasitesOf image_results).dedup
      (if (confidencesOf image_results).isEmpty then 0
        else (confidencesOf image_results).sum /
          ((confidencesOf image_results).length : ℚ))
      (positive_count image_results) image_results.length
  else
    Diagnosis.negative (85 / 100) 0 image_results.length

/-! ### Helper lemmas about the aggregator -/

/-- Filtering additionally on the presence of a label before extracting the
labels is the same as extracting the labels from the detected entries. -/
lemma parasitesOf_eq_filter_detected (rs : List DetectionResult) :
    parasitesOf rs =
      (rs.filter (fun r => r.parasite_detected)).filterMap
        (fun r => r.parasite_type.map Species.name) := by
  induction rs with
  | nil => rfl
  | cons r t ih =>
    cases hd : r.parasite_detected <;> cases ht : r.parasite_type <;>
      simp_all [parasitesOf, List.filter_cons, hd, ht]

/-- The confidence list collected over detected entries has exactly
`positive_count` elements. -/
lemma confidencesOf_length (rs : List DetectionResult) :
    (confidencesOf rs).length = positive_count rs := by
  simp [confidencesOf, positive_count, List.countP_eq_length_filter]

lemma isEmpty_false_of_pos (rs : List DetectionResult)
    (h : 0 < positive_count rs) : rs.isEmpty = false := by
  cases rs with
  | nil => simp [positive_count] at h
  | cons r t => rfl

lemma confidencesOf_isEmpty_false (rs : List DetectionResult)
    (h : 0 < positive_count rs) : (confidencesOf rs).isEmpty = false := by
  have hl := confidencesOf_length rs
  cases hc : confidencesOf rs with
  | nil => rw [hc] at hl; simp at hl; omega
  | cons a t => rfl

/-- In the positive branch the guard on `confidences` is never taken and the
mean is the genuine sum-over-length quotient. -/
lemma aggregate_pos_branch (rs : List DetectionResult)
    (h : 0 < positive_count rs) :
    aggregate rs = Diagnosis.positive (parasitesOf rs).dedup
      ((confidencesOf rs).sum / ((confidencesOf rs).length : ℚ))
      (positive_count rs) rs.length := by
  have hne := isEmpty_false_of_pos rs h
  have hc := confidencesOf_isEmpty_false rs h
  simp [aggregate, hne, hc, h]

/-- Both non-empty branches of the aggregator store the input length in the
`images_analyzed` key. -/
lemma imagesAnalyzedOf_aggregate (rs : List DetectionResult)
    (h : rs.isEmpty = false) :
    imagesAnalyzedOf (aggregate rs) = some rs.length := by
  by_cases hp : 0 < positive_count rs
  · rw [aggregate_pos_branch rs hp]; rfl
  · simp [aggregate, h, hp, imagesAnalyzedOf]

/-- A concrete detected record, used to instantiate proved theorems. -/
def rPos : DetectionResult :=
  { parasite_detected := true, parasite_type := some .falciparum,
    confidence := 9 / 10 }

/-- A concrete undetected record, used to instantiate proved theorems. -/
def rNeg : DetectionResult :=
  { parasite_detected := false, parasite_type := none, confidence := 4 / 5 }

/-- C1: on any input with k > 0 detected entries the aggregator returns
`Positive`, positive count k, confidence equal to the arithmetic mean of the
confidences of exactly the detected entries, species set equal to the
deduplicated labels of the detected entries that carry one; every reported
species comes from a detected entry. -/
theorem claim_C1_positive (rs : List DetectionResult)
    (h : 0 < positive_count rs) :
    aggregate rs =
      Diagnosis.positive
        (((rs.filter (fun r => r.parasite_detected)).filterMap
            (fun r => r.parasite_type.map Species.name)).dedup)
        ((((rs.filter (fun r => r.parasite_detected)).map
            (fun r => r.confidence)).sum) / (positive_count rs : ℚ))
        (positive_count rs) rs.length ∧
      positive_count rs = (rs.filter (fun r => r.parasite_detected)).length ∧
      ∀ nm ∈ (((rs.filter (fun r => r.parasite_detected)).filterMap
          (fun r => r.parasite_type.map Species.name)).dedup),
        ∃ r ∈ rs, r.parasite_detected = true ∧
          r.parasite_type.map Species.name = some nm := by
  refine ⟨?_, ?_, ?_⟩
  · rw [aggregate_pos_branch rs h, parasitesOf_eq_filter_detected,
      confidencesOf_length]
    rfl
  · simp [positive_count, List.countP_eq_length_filter]
  · intro nm hnm
    rw [List.mem_dedup, List.mem_filterMap] at hnm
    obtain ⟨r, hr, heq⟩ := hnm
    rw [List.mem_filter] at hr
    exact ⟨r, hr.1, by simpa using hr.2, heq⟩

theorem claim_C1_witness :
    aggregate [rPos] =
      Diagnosis.positive
        (((([rPos]).filter (fun r => r.parasite_detected)).filterMap
            (fun r => r.parasite_type.map Species.name)).dedup)
        ((((([rPos]).filter (fun r => r.parasite_detected)).map
            (fun r => r.confidence)).sum) / (positive_count [rPos] : ℚ))
        (positive_count [rPos]) ([rPos]).length ∧
      positive_count [rPos] =
        (([rPos]).filter (fun r => r.parasite_detected)).length ∧
      ∀ nm ∈ (((([rPos]).filter (fun r => r.parasite_detected)).filterMap
          (fun r => r.parasite_type.map Species.name)).dedup),
        ∃ r ∈ [rPos], r.parasite_detected = true ∧
          r.parasite_type.map Species.name = some nm :=
  claim_C1_positive [rPos] (by decide)

/-- C2: on any non-empty input with no detected entry the aggregator returns
`Negative` with confidence exactly 0.85, positive count 0 and the input
length as total. -/
theorem claim_C2_negative (rs : List DetectionResult) (hne : rs ≠ [])
    (h0 : positive_count rs = 0) :
    aggregate rs = Diagnosis.negative (85 / 100) 0 rs.length := by
  have hb : rs.isEmpty = false := by
    cases rs with
    | nil => exact absurd rfl hne
    | cons a t => rfl
  simp [aggregate, hb, h0]

theorem claim_C2_witness :
    aggregate [rNeg] = Diagnosis.negative (85 / 100) 0 ([rNeg]).length :=
  claim_C2_negative [rNeg] (by decide) (by decide)

/-- C3: on the empty input the aggregator returns `Inconclusive` with the
note that no images were found. -/
theorem claim_C3_empty :
    aggregate [] = Diagnosis.inconclusive "No images found in PDF" := by
  rfl

/-- C4 counterexample: at the empty input the aggregator takes the
Inconclusive branch, whose result dict has no `images_analyzed` key at all,
so it does not carry the input length (0). -/
theorem claim_C4_counterexample :
    aggregate [] = Diagnosis.inconclusive "No images found in PDF" ∧
      imagesAnalyzedOf (aggregate ([] : List DetectionResult)) ≠
        some (List.length ([] : List DetectionResult)) := by
  exact ⟨rfl, by simp [aggregate, imagesAnalyzedOf]⟩

/-- C4 amended: in the Negative and Positive branches (i.e. on every
non-empty input) the returned diagnosis carries `images_analyzed` equal to
the input length; the Inconclusive branch carries no such value. -/
theorem claim_C4_amended (rs : List DetectionResult) (h : rs ≠ []) :
    imagesAnalyzedOf (aggregate rs) = some rs.length := by
  have hb : rs.isEmpty = false := by
    cases rs with
    | nil => exact absurd rfl h
    | cons a t => rfl
  exact imagesAnalyzedOf_aggregate rs hb

theorem claim_C4_witness :
    imagesAnalyzedOf (aggregate [rNeg]) = some ([rNeg]).length :=
  claim_C4_amended [rNeg] (by decide)

/-- C7: the aggregator is a total function of its input list, and whenever
the positive count is positive the confidence list fed to the mean is
non-empty with length equal to the positive count, so the division is never
taken with an empty divisor. -/
theorem claim_C7_total (rs : List DetectionResult) :
    (∃ d : Diagnosis, aggregate rs = d) ∧
      (0 < positive_count rs →
        confidencesOf rs ≠ [] ∧
          (confidencesOf rs).length = positive_count rs) := by
  refine ⟨⟨aggregate rs, rfl⟩, fun h => ⟨?_, confidencesOf_length rs⟩⟩
  intro hc
  have hl := confidencesOf_length rs
  rw [hc] at hl
  simp at hl
  omega

theorem claim_C7_witness :
    confidencesOf [rPos] ≠ [] ∧
      (confidencesOf [rPos]).length = positive_count [rPos] :=
  (claim_C7_total [rPos]).2 (by decide)

/-! ### The extraction and classification stubs -/

/-- One placeholder image dict: `{"page": 0, "index": i, "bytes": b"placeholder"}`. -/
structure ImageRecord where
  page : Nat
  index : Nat
  bytes : String
deriving DecidableEq

/-- Models `random.randint(a, b)`: the draw is abstracted as an arbitrary
natural number reduced into the inclusive range `[a, b]`, so every possible
outcome of the primitive is reachable and no other outcome is. -/
def randint (a b : Nat) (draw : Nat) : Nat := a + draw % (b - a + 1)

/-- `extract_images_from_pdf`: ignores the path and returns
`[{"page": 0, "index": i, "bytes": b"placeholder"} for i in range(random.randint(1, 5))]`. -/
def extract_images_from_pdf (_pdf_path : String) (draw : Nat) :
    List ImageRecord :=
  (List.range (randint 1 5 draw)).map
    (fun i => { page := 0, index := i, bytes := "placeholder" })

/-- The random draws consumed by one call of `analyze_image_for_malaria`:
`coin` is `random.choice([True, False])`, `labelRoll` is `random.random()`,
`speciesIdx` selects among the four species, `conf` is
`random.uniform(0.7, 0.99)`. -/
structure Draw where
  coin : Bool
  labelRoll : ℚ
  speciesIdx : Fin 4
  conf : ℚ
deriving DecidableEq

/-- The ranges the random primitives guarantee for one classifier call. -/
def Draw.valid (d : Draw) : Prop :=
  0 ≤ d.labelRoll ∧ d.labelRoll < 1 ∧ 7 / 10 ≤ d.conf ∧ d.conf ≤ 99 / 100

instance (d : Draw) : Decidable d.valid := by
  unfold Draw.valid
  infer_instance

/-- `random.choice` over the fixed four-element species list. -/
def speciesChoice (i : Fin 4) : Species :=
  match i.val with
  | 0 => .falciparum
  | 1 => .vivax
  | 2 => .ovale
  | _ => .malariae

/-- `analyze_image_for_malaria`: ignores the image bytes; `parasite_detected`
is the coin, `parasite_type` is a species exactly when `random.random() > 0.3`,
`confidence` is the uniform draw.  The label draw and the detected draw are
separate fields, mirroring the independent calls in the source. -/
def analyze_image_for_malaria (_image_data : String) (d : Draw) :
    DetectionResult :=
  { parasite_detected := d.coin
    parasite_type :=
      if (3 : ℚ) / 10 < d.labelRoll then some (speciesChoice d.speciesIdx)
      else none
    confidence := d.conf }

/-- `analyze_malaria_pdf`: extract, classify each image in order (the i-th
image consumes the i-th draw of the stream), aggregate. -/
def analyze_malaria_pdf (pdf_path : String) (extractDraw : Nat)
    (draws : Nat → Draw) : Diagnosis :=
  let images := extract_images_from_pdf pdf_path extractDraw
  let image_results :=
    images.enum.map (fun p => analyze_image_for_malaria p.2.bytes (draws p.1))
  aggregate image_results

lemma randint_1_5_bounds (draw : Nat) :
    1 ≤ randint 1 5 draw ∧ randint 1 5 draw ≤ 5 := by
  unfold randint
  have : draw % 5 < 5 := Nat.mod_lt _ (by omega)
  omega

lemma extract_length (p : String) (draw : Nat) :
    (extract_images_from_pdf p draw).length = randint 1 5 draw := by
  simp [extract_images_from_pdf]

/-- C5: every draw of the extraction stub yields between 1 and 5 records,
each with page 0, index equal to its position and the fixed placeholder
payload; consequently the analysis pipeline always reports an
`images_analyzed` count between 1 and 5. -/
theorem claim_C5_extract (p : String) (draw : Nat) :
    1 ≤ (extract_images_from_pdf p draw).length ∧
      (extract_images_from_pdf p draw).length ≤ 5 ∧
      (∀ i, i < (extract_images_from_pdf p draw).length →
        (extract_images_from_pdf p draw).get? i =
          some { page := 0, index := i, bytes := "placeholder" }) ∧
      (∀ ds : Nat → Draw, ∃ k,
        imagesAnalyzedOf (analyze_malaria_pdf p draw ds) = some k ∧
          1 ≤ k ∧ k ≤ 5) := by
  have hb := randint_1_5_bounds draw
  have hl := extract_length p draw
  refine ⟨by omega, by omega, ?_, ?_⟩
  · intro i hi
    rw [hl] at hi
    simp [extract_images_from_pdf, List.getElem?_map, List.getElem?_range, hi]
  · intro ds
    refine ⟨randint 1 5 draw, ?_, hb.1, hb.2⟩
    unfold analyze_malaria_pdf
    have hlen :
        ((extract_images_from_pdf p draw).enum.map
          (fun q => analyze_image_for_malaria q.2.bytes (ds q.1))).length =
          randint 1 5 draw := by
      simp [extract_length p draw]
    have hne :
        ((extract_images_from_pdf p draw).enum.map
          (fun q => analyze_image_for_malaria q.2.bytes (ds q.1))).isEmpty =
          false := by
      cases hE : ((extract_images_from_pdf p draw).enum.map
          (fun q => analyze_image_for_malaria q.2.bytes (ds q.1))).isEmpty with
      | false => rfl
      | true =>
        have h0 := List.isEmpty_iff_length_eq_zero.mp hE
        omega
    rw [imagesAnalyzedOf_aggregate _ hne, hlen]

theorem claim_C5_witness :
    (extract_images_from_pdf "p" 0).get? 0 =
      some { page := 0, index := 0, bytes := "placeholder" } :=
  (claim_C5_extract "p" 0).2.2.1 0 (by decide)

/-- A valid draw whose label roll exceeds 0.3 but whose coin is false. -/
def dLabelNoDetect : Draw :=
  { coin := false, labelRoll := 1 / 2, speciesIdx := 0, conf := 4 / 5 }

/-- A valid draw whose coin is true but whose label roll stays below 0.3. -/
def dDetectNoLabel : Draw :=
  { coin := true, labelRoll := 0, speciesIdx := 0, conf := 4 / 5 }

/-- C6: the label draw and the detected draw are independent: some valid
draw yields a species label with `detected = false`, and some valid draw
yields `detected = true` with no label. -/
theorem claim_C6_independence :
    (∃ d : Draw, d.valid ∧
      (analyze_image_for_malaria "placeholder" d).parasite_detected = false ∧
      ((analyze_image_for_malaria "placeholder" d).parasite_type).isSome =
        true) ∧
    (∃ d : Draw, d.valid ∧
      (analyze_image_for_malaria "placeholder" d).parasite_detected = true ∧
      (analyze_image_for_malaria "placeholder" d).parasite_type = none) := by
  constructor
  · refine ⟨dLabelNoDetect, ?_, rfl, ?_⟩
    · norm_num [Draw.valid, dLabelNoDetect]
    · norm_num [analyze_image_for_malaria, dLabelNoDetect]
  · refine ⟨dDetectNoLabel, ?_, rfl, ?_⟩
    · norm_num [Draw.valid, dDetectNoLabel]
    · norm_num [analyze_image_for_malaria, dDetectNoLabel]

/-! ### The upload validator -/

/-- The characters after the last occurrence of `sep` (meaningful when `sep`
occurs). -/
def afterLastSep (sep : Char) (l : List Char) : List Char :=
  (l.reverse.takeWhile (fun c => c ≠ sep)).reverse

/-- The characters before the last occurrence of `sep`. -/
def beforeLastSep (sep : Char) (l : List Char) : List Char :=
  ((l.reverse.dropWhile (fun c => c ≠ sep)).drop 1).reverse

/-- Models Python `s.rsplit(sep, 1)`: split at most once, from the right.
When `sep` occurs the result has exactly the two parts around the last
occurrence; otherwise it is the one-element list holding the whole string. -/
def rsplitOnce (sep : Char) (l : List Char) : List (List Char) :=
  if sep ∈ l then [beforeLastSep sep l, afterLastSep sep l] else [l]

/-- Models Python `str.lower()` on the ASCII strings involved here. -/
def lowerChars (l : List Char) : List Char := l.map Char.toLower

/-- `app.config["ALLOWED_EXTENSIONS"] = {"pdf"}`. -/
def allowedExtensions : List (List Char) := ["pdf".data]

/-- `allowed_file`:
`"." in filename and filename.rsplit(".", 1)[1].lower() in ALLOWED_EXTENSIONS`.
Python `in` is membership, modelled by decidable membership; the `[1]`
indexing is total here via `getD` and claim C10 shows the index is in range
whenever it is evaluated (the conjunction short-circuits otherwise). -/
def allowed_file (filename : String) : Bool :=
  decide ('.' ∈ filename.data) &&
    decide (lowerChars ((rsplitOnce '.' filename.data).getD 1 []) ∈
      allowedExtensions)

/-- C8: the validator accepts exactly the filenames that contain a dot and
whose substring after the last dot, lowercased, is the single accepted
extension "pdf". -/
theorem claim_C8_allowed_iff (s : String) :
    allowed_file s = true ↔
      ('.' ∈ s.data ∧ lowerChars (afterLastSep '.' s.data) = "pdf".data) := by
  unfold allowed_file
  by_cases h : '.' ∈ s.data
  · simp [h, rsplitOnce, allowedExtensions]
  · simp [h]

theorem claim_C8_witness : allowed_file "report.PDF" = true :=
  (claim_C8_allowed_iff "report.PDF").mpr ⟨by decide, by decide⟩

/-- C10: the validator is total — on every string it returns a boolean —
and whenever the filename contains a dot the right-split yields exactly two
parts, so the index-1 access evaluated in that case is in range. -/
theorem claim_C10_total_safe (s : String) :
    (allowed_file s = true ∨ allowed_file s = false) ∧
      ('.' ∈ s.data → (rsplitOnce '.' s.data).length = 2) := by
  constructor
  · cases h : allowed_file s
    · exact Or.inr rfl
    · exact Or.inl rfl
  · intro h
    simp [rsplitOnce, h]

theorem claim_C10_witness : (rsplitOnce '.' ("a.pdf").data).length = 2 :=
  (claim_C10_total_safe "a.pdf").2 (by decide)

/-! ### The analyze endpoint -/

/-- The `file` part of a multipart request: a filename and opaque content. -/
structure FilePart where
  filename : String
  content : String
deriving DecidableEq

/-- The upload directory, as the list of (path, content) pairs written so
far. -/
abbrev Store := List (String × String)

/-- A JSON response body: either an error object or a success envelope. -/
inductive Resp where
  | err (message : String)
  | success (results : Diagnosis)
deriving DecidableEq

/-- `analyze_pdf` (the `/api/analyze` handler): status code, body and the
store after the request.  `file` is `none` when the multipart field is
absent.  At the `if file and allowed_file(...)` line the filename is already
known non-empty, so the werkzeug truthiness of `file` (which is the
truthiness of its filename) is true and only the validator decides the
branch.  The 500 path requires the analysis to raise, which the embedded
pure pipeline never does. -/
def analyze_pdf (file : Option FilePart) (store : Store) (extractDraw : Nat)
    (draws : Nat → Draw) : Nat × Resp × Store :=
  match file with
  | none => (400, Resp.err "No file part", store)
  | some f =>
    if f.filename = "" then (400, Resp.err "No file selected", store)
    else if allowed_file f.filename then
      (200, Resp.success (analyze_malaria_pdf f.filename extractDraw draws),
        (f.filename, f.content) :: store)
    else
      (400, Resp.err "File type not allowed. Please upload a PDF file.",
        store)

/-- C9: the three client-error cases return 400 with their exact messages —
missing field, empty filename, disallowed extension — and every 400 response
leaves the store unchanged (nothing is written). -/
theorem claim_C9_client_errors (st : Store) (f : FilePart) (e : Nat)
    (d : Nat → Draw) :
    analyze_pdf none st e d = (400, Resp.err "No file part", st) ∧
      (f.filename = "" →
        analyze_pdf (some f) st e d =
          (400, Resp.err "No file selected", st)) ∧
      (f.filename ≠ "" → allowed_file f.filename = false →
        analyze_pdf (some f) st e d =
          (400, Resp.err "File type not allowed. Please upload a PDF file.",
            st)) ∧
      (∀ req : Option FilePart, (analyze_pdf req st e d).1 = 400 →
        (analyze_pdf req st e d).2.2 = st) := by
  refine ⟨rfl, ?_, ?_, ?_⟩
  · intro h
    simp [analyze_pdf, h]
  · intro h ha
    simp [analyze_pdf, h, ha]
  · intro req
    match req with
    | none => intro _; rfl
    | some g =>
      by_cases hg : g.filename = ""
      · intro _; simp [analyze_pdf, hg]
      · by_cases ha : allowed_file g.filename
        · simp [analyze_pdf, hg, ha]
        · intro _; simp [analyze_pdf, hg, ha]

theorem claim_C9_witness :
    analyze_pdf (some { filename := "report.exe", content := "x" }) [] 0
        (fun _ => dDetectNoLabel) =
      (400, Resp.err "File type not allowed. Please upload a PDF file.",
        []) :=
  (claim_C9_client_errors [] { filename := "report.exe", content := "x" } 0
    (fun _ => dDetectNoLabel)).2.2.1 (by decide) (by decide)

end Malaria
